import Mathlib

/-!
Formal model of the carwatchdogd I/O performance data collection service
(src/watchdog/server/src/IoPerfCollection.cpp), shallowly embedded in Lean.

Pure helpers become Lean functions, the stateful scheduler becomes explicit
state passing over a `ServiceState` value, and fallible operations return
`Except String`.  Machine integers (`uint64_t`, `size_t`, `nsecs_t`) are
modelled as `Nat`: none of the verified operations subtracts or can overflow
within the claims considered.  `double` arithmetic in `percentage` and
`majorFaultsPercentChange` is modelled over exact rationals; the guarded
formulas are identical and every value the claims mention is exactly
representable in binary floating point.

External collaborators (UidIoStats, ProcStat, ProcPidStat collectors, the
package-name resolver, the looper) are modelled at their boundary: each stat
source is a pair of an `enabled` flag and a `collect()` outcome, the looper is
a list of pending messages plus a monotonic clock, and the uid-to-package-name
mapping is an association list supplied to the collection pass.
-/

namespace CarWatchdog

/-- Lines 59-61 of IoPerfCollection.cpp: `percentage(numer, denom)` returns
`0.0` when the denominator is zero and `numer / denom * 100` otherwise. -/
def percentage (numer denom : Nat) : ℚ :=
  if denom = 0 then 0 else ((numer : ℚ) / (denom : ℚ)) * 100

/-- Modelled from the spec: the per-uid I/O metric matrix
`ios.metrics[{READ_BYTES, WRITE_BYTES, FSYNC_COUNT}][{FOREGROUND, BACKGROUND}]`
of `UidIoUsage` (declared in a header absent from src/), flattened into six
named counters. -/
structure IoUsageMetrics where
  rdFgBytes : Nat
  rdBgBytes : Nat
  wrFgBytes : Nat
  wrBgBytes : Nat
  fsyncFg : Nat
  fsyncBg : Nat
deriving DecidableEq, Repr

/-- Modelled from the spec: `IoUsage::isZero()` (header absent from src/) is
true when every metric of the matrix is zero; the collection loop uses it to
skip uids with no I/O activity at all. -/
def IoUsageMetrics.isZero (m : IoUsageMetrics) : Bool :=
  m.rdFgBytes == 0 && m.rdBgBytes == 0 && m.wrFgBytes == 0 && m.wrBgBytes == 0 &&
    m.fsyncFg == 0 && m.fsyncBg == 0

/-- Modelled from the spec: `IoUsage::sumReadBytes()` (header absent from
src/), the ranking key of the top-N readers list: foreground plus background
read bytes. -/
def IoUsageMetrics.sumReadBytes (m : IoUsageMetrics) : Nat :=
  m.rdFgBytes + m.rdBgBytes

/-- Modelled from the spec: `IoUsage::sumWriteBytes()` (header absent from
src/), the ranking key of the top-N writers list. -/
def IoUsageMetrics.sumWriteBytes (m : IoUsageMetrics) : Nat :=
  m.wrFgBytes + m.wrBgBytes

/-- One entry of the map returned by `UidIoStats::collect()`. -/
structure UidIoUsage where
  uid : Nat
  ios : IoUsageMetrics
deriving DecidableEq, Repr

/-- `UidIoPerfData::Stats` (lines 652-659): one emitted top-N entry of the
per-uid I/O report.  `bytesFg`/`bytesBg` carry the ranked byte metric (read
bytes in `topNReads`, write bytes in `topNWrites`). -/
structure UidIoPerfStats where
  userId : Nat
  packageName : String
  bytesFg : Nat
  bytesBg : Nat
  fsyncFgCnt : Nat
  fsyncBgCnt : Nat
deriving DecidableEq, Repr

/-- `UidIoPerfData`: the per-uid I/O report of one record, with the
`total[metric][uidState]` matrix flattened into six named totals. -/
structure UidIoPerfData where
  topNReads : List UidIoPerfStats
  topNWrites : List UidIoPerfStats
  totalRdFg : Nat
  totalRdBg : Nat
  totalWrFg : Nat
  totalWrBg : Nat
  totalFsyncFg : Nat
  totalFsyncBg : Nat
deriving DecidableEq, Repr

/-- The default-constructed `UidIoPerfData` of a fresh `IoPerfRecord`. -/
def UidIoPerfData.empty : UidIoPerfData :=
  ⟨[], [], 0, 0, 0, 0, 0, 0⟩

/-- `SystemIoPerfData` as filled by `collectSystemIoPerfDataLocked`
(lines 700-703). -/
structure SystemIoPerfData where
  cpuIoWaitTime : Nat
  totalCpuTime : Nat
  ioBlockedProcessesCnt : Nat
  totalProcessesCnt : Nat
deriving DecidableEq, Repr

/-- The default-constructed `SystemIoPerfData` of a fresh `IoPerfRecord`. -/
def SystemIoPerfData.empty : SystemIoPerfData :=
  ⟨0, 0, 0, 0⟩

/-- `UidProcessStats` (lines 63-68): per-uid aggregation of process stats. -/
structure UidProcessStats where
  uid : Nat
  ioBlockedTasksCnt : Nat
  totalTasksCnt : Nat
  majorFaults : Nat
deriving DecidableEq, Repr

/-- `ProcessIoPerfData::Stats`: one emitted top-N entry of the process
report; `count` is the ranked metric (I/O blocked task count or major fault
count). -/
structure ProcessIoPerfStats where
  userId : Nat
  packageName : String
  count : Nat
deriving DecidableEq, Repr

/-- `ProcessIoPerfData` as filled by `collectProcessIoPerfDataLocked`. -/
structure ProcessIoPerfData where
  topNIoBlockedUids : List ProcessIoPerfStats
  topNIoBlockedUidsTotalTaskCnt : List Nat
  topNMajorFaults : List ProcessIoPerfStats
  totalMajorFaults : Nat
  majorFaultsPercentChange : ℚ
deriving DecidableEq, Repr

/-- The default-constructed `ProcessIoPerfData` of a fresh `IoPerfRecord`. -/
def ProcessIoPerfData.empty : ProcessIoPerfData :=
  ⟨[], [], [], 0, 0⟩

/-- `IoPerfRecord` (lines 559-561): one collected record, stamped with the
wall-clock time of the tick. -/
structure IoPerfRecord where
  time : Nat
  systemIoPerfData : SystemIoPerfData
  processIoPerfData : ProcessIoPerfData
  uidIoPerfData : UidIoPerfData
deriving DecidableEq, Repr

/-- `CollectionInfo`: interval (nanoseconds), cache cap, last collection
uptime, and the ring of cached records (oldest first, appended at the
back). -/
structure CollectionInfo where
  interval : Nat
  maxCacheSize : Nat
  lastCollectionUptime : Nat
  records : List IoPerfRecord
deriving DecidableEq, Repr

/-- `mCustomCollection = {};` (line 503): the value-initialized
`CollectionInfo`. -/
def CollectionInfo.empty : CollectionInfo :=
  ⟨0, 0, 0, []⟩

/-- `multiuser_get_user_id` from the Android multiuser header:
`uid / AID_USER_OFFSET` with `AID_USER_OFFSET = 100000`. -/
def multiuserGetUserId (uid : Nat) : Nat :=
  uid / 100000

/-- The bounded top-N insertion primitive (lines 620-628, 629-637, 734-742,
743-751): scan the candidate list from the front, skip while the existing
entry's key strictly exceeds the new entry's key, and at the first position
whose key is less than or equal erase the last element of the list and insert
the new entry at that position; if every existing key strictly exceeds the
new key the list is unchanged. -/
def insertTop {α : Type} (key : α → Nat) (x : α) : List α → List α
  | [] => []
  | y :: ys => if key x < key y then y :: insertTop key x ys else x :: (y :: ys).dropLast

/-- The zero-valued sentinel `tempUsage` (line 594) that pre-fills the top-N
candidate lists of the uid I/O pass. -/
def tempUsage : UidIoUsage :=
  ⟨0, ⟨0, 0, 0, 0, 0, 0⟩⟩

/-- The ranking loop of `collectUidIoPerfDataLocked` (lines 599-638) for one
key: starting from `mTopNStatsPerCategory` copies of the zero sentinel, fold
the usage entries in iteration order, skipping entries whose whole usage is
zero, inserting every other entry with the bounded insertion primitive. -/
def rankUidCandidates (n : Nat) (key : UidIoUsage → Nat) (usages : List UidIoUsage) :
    List UidIoUsage :=
  usages.foldl (fun acc u => if u.ios.isZero then acc else insertTop key u acc)
    (List.replicate n tempUsage)

/-- The totals accumulation of `collectUidIoPerfDataLocked` (lines 607-618):
sums each metric over the usage entries, skipping whole-zero entries exactly
as the ranking loop does. -/
def accumulateTotals (usages : List UidIoUsage) : UidIoPerfData → UidIoPerfData :=
  fun d =>
    usages.foldl
      (fun d u =>
        if u.ios.isZero then d
        else
          { d with
            totalRdFg := d.totalRdFg + u.ios.rdFgBytes
            totalRdBg := d.totalRdBg + u.ios.rdBgBytes
            totalWrFg := d.totalWrFg + u.ios.wrFgBytes
            totalWrBg := d.totalWrBg + u.ios.wrBgBytes
            totalFsyncFg := d.totalFsyncFg + u.ios.fsyncFg
            totalFsyncBg := d.totalFsyncBg + u.ios.fsyncBg })
      d

/-- Package-name lookup at emission time (lines 660-662): the resolved
mapping `mUidToPackageNameMapping` is supplied as an association list; an
unmapped uid keeps `std::to_string(uid)` as its name. -/
def packageNameOf (mapping : List (Nat × String)) (uid : Nat) : String :=
  (mapping.lookup uid).getD (toString uid)

/-- Emission of one top-N readers entry (lines 652-663). -/
def mkReadStats (mapping : List (Nat × String)) (u : UidIoUsage) : UidIoPerfStats :=
  { userId := multiuserGetUserId u.uid
    packageName := packageNameOf mapping u.uid
    bytesFg := u.ios.rdFgBytes
    bytesBg := u.ios.rdBgBytes
    fsyncFgCnt := u.ios.fsyncFg
    fsyncBgCnt := u.ios.fsyncBg }

/-- Emission of one top-N writers entry (lines 672-683). -/
def mkWriteStats (mapping : List (Nat × String)) (u : UidIoUsage) : UidIoPerfStats :=
  { userId := multiuserGetUserId u.uid
    packageName := packageNameOf mapping u.uid
    bytesFg := u.ios.wrFgBytes
    bytesBg := u.ios.wrBgBytes
    fsyncFgCnt := u.ios.fsyncFg
    fsyncBgCnt := u.ios.fsyncBg }

/-- `collectUidIoPerfDataLocked` (lines 581-686) on an enabled collector
whose `collect()` succeeded: accumulate the totals, rank the top-N read and
write candidates, and emit each candidate list up to (exclusive) its first
whole-zero entry, which marks the end of the real usage records.  The
iteration order of the unordered uid map is the order of the input list. -/
def collectUidIoPerfData (n : Nat) (mapping : List (Nat × String))
    (usages : List UidIoUsage) : UidIoPerfData :=
  let base := accumulateTotals usages UidIoPerfData.empty
  { base with
    topNReads :=
      ((rankUidCandidates n (fun u => u.ios.sumReadBytes) usages).takeWhile
        (fun u => !u.ios.isZero)).map (mkReadStats mapping)
    topNWrites :=
      ((rankUidCandidates n (fun u => u.ios.sumWriteBytes) usages).takeWhile
        (fun u => !u.ios.isZero)).map (mkWriteStats mapping) }

/-- The zero-valued sentinel `temp` (line 724) that pre-fills the top-N
candidate lists of the process pass. -/
def tempProcessStats : UidProcessStats :=
  ⟨0, 0, 0, 0⟩

/-- The ranking loop of `collectProcessIoPerfDataLocked` (lines 728-752) for
one key: every per-uid aggregate is offered to the bounded insertion
primitive; there is no zero-skip on insertion here. -/
def rankProcessCandidates (n : Nat) (key : UidProcessStats → Nat)
    (stats : List UidProcessStats) : List UidProcessStats :=
  stats.foldl (fun acc u => insertTop key u acc) (List.replicate n tempProcessStats)

/-- Emission of one process top-N entry (lines 766-770 and 783-787). -/
def mkProcessStats (mapping : List (Nat × String)) (key : UidProcessStats → Nat)
    (u : UidProcessStats) : ProcessIoPerfStats :=
  { userId := multiuserGetUserId u.uid
    packageName := packageNameOf mapping u.uid
    count := key u }

/-- `collectProcessIoPerfDataLocked` (lines 707-802) on an enabled collector
whose `collect()` succeeded, starting from the per-uid aggregates in map
iteration order: total major faults, the two ranked lists emitted up to their
first zero-keyed candidate, the parallel total-task-count column of the
I/O-blocked list, and the percent change against the previous total.  Returns
the report together with the new `mLastMajorFaults`. -/
def collectProcessIoPerfData (n : Nat) (mapping : List (Nat × String))
    (lastMajorFaults : Nat) (stats : List UidProcessStats) :
    ProcessIoPerfData × Nat :=
  let totalMajorFaults : Nat := stats.foldl (fun t u => t + u.majorFaults) 0
  let blockedRanked :=
    (rankProcessCandidates n (fun u => u.ioBlockedTasksCnt) stats).takeWhile
      (fun u => u.ioBlockedTasksCnt != 0)
  let faultsRanked :=
    (rankProcessCandidates n (fun u => u.majorFaults) stats).takeWhile
      (fun u => u.majorFaults != 0)
  let change : ℚ :=
    if lastMajorFaults = 0 then 0
    else ((totalMajorFaults : ℚ) - (lastMajorFaults : ℚ)) / (lastMajorFaults : ℚ) * 100
  (⟨blockedRanked.map (mkProcessStats mapping fun u => u.ioBlockedTasksCnt),
    blockedRanked.map (fun u => u.totalTasksCnt),
    faultsRanked.map (mkProcessStats mapping fun u => u.majorFaults),
    totalMajorFaults, change⟩,
   totalMajorFaults)

/-- `ProcStatInfo` at the boundary used by `collectSystemIoPerfDataLocked`
(lines 700-703): the four numbers the record keeps. -/
structure ProcStatInfo where
  cpuIoWaitTime : Nat
  totalCpuTime : Nat
  ioBlockedProcessesCnt : Nat
  totalProcessesCnt : Nat
deriving DecidableEq, Repr

deriving instance DecidableEq for Except

/-- The three stat-source collaborators at their boundary for one tick: an
`enabled()` flag per source and the outcome its `collect()` would return. -/
structure StatSourceEnv where
  uidIoEnabled : Bool
  uidIoResult : Except String (List UidIoUsage)
  procStatEnabled : Bool
  procStatResult : Except String ProcStatInfo
  procPidEnabled : Bool
  procPidResult : Except String (List UidProcessStats)
deriving DecidableEq, Repr

/-- `collectSystemIoPerfDataLocked` (lines 688-705): a disabled collector is
skipped, leaving the default-constructed data; a failed `collect()` is an
error; otherwise the four counters are copied. -/
def collectSystemIoPerfData (env : StatSourceEnv) : Except String SystemIoPerfData :=
  if !env.procStatEnabled then .ok SystemIoPerfData.empty
  else
    match env.procStatResult with
    | .error e => .error ("Failed to collect proc stats: " ++ e)
    | .ok p => .ok ⟨p.cpuIoWaitTime, p.totalCpuTime, p.ioBlockedProcessesCnt, p.totalProcessesCnt⟩

/-- The process half of `collectLocked`: skip when disabled (keeping the
previous `mLastMajorFaults`), fail when the enabled collector's read fails,
otherwise build the report. -/
def collectProcessStep (env : StatSourceEnv) (n : Nat) (mapping : List (Nat × String))
    (lastMajorFaults : Nat) : Except String (ProcessIoPerfData × Nat) :=
  if !env.procPidEnabled then .ok (ProcessIoPerfData.empty, lastMajorFaults)
  else
    match env.procPidResult with
    | .error e => .error ("Failed to collect process stats: " ++ e)
    | .ok stats => .ok (collectProcessIoPerfData n mapping lastMajorFaults stats)

/-- The uid I/O half of `collectLocked`: skip when disabled, fail when the
enabled collector's read fails, otherwise build the report. -/
def collectUidIoStep (env : StatSourceEnv) (n : Nat) (mapping : List (Nat × String)) :
    Except String UidIoPerfData :=
  if !env.uidIoEnabled then .ok UidIoPerfData.empty
  else
    match env.uidIoResult with
    | .error e => .error ("Failed to collect uid I/O usage: " ++ e)
    | .ok usages => .ok (collectUidIoPerfData n mapping usages)

/-- The ring append of `collectLocked` (lines 574-577): erase the oldest
record when the current size strictly exceeds `maxCacheSize`, then append the
new record at the back. -/
def appendRecord (info : CollectionInfo) (r : IoPerfRecord) : CollectionInfo :=
  let recs := if info.maxCacheSize < info.records.length then info.records.drop 1
              else info.records
  { info with records := recs ++ [r] }

/-- `collectLocked` (lines 555-579): fatal when every stat source is
disabled; otherwise collect the system, process, and uid I/O data in that
order, propagating the first enabled-source read failure, and on success
append the record to the ring.  Returns the updated info together with the
new `mLastMajorFaults`. -/
def collectLocked (env : StatSourceEnv) (n : Nat) (mapping : List (Nat × String))
    (time : Nat) (info : CollectionInfo) (lastMajorFaults : Nat) :
    Except String (CollectionInfo × Nat) :=
  if !env.uidIoEnabled && !env.procStatEnabled && !env.procPidEnabled then
    .error "No collectors enabled"
  else
    match collectSystemIoPerfData env with
    | .error e => .error e
    | .ok sys =>
      match collectProcessStep env n mapping lastMajorFaults with
      | .error e => .error e
      | .ok (proc, lmf) =>
        match collectUidIoStep env n mapping with
        | .error e => .error e
        | .ok uidio => .ok (appendRecord info ⟨time, sys, proc, uidio⟩, lmf)

/-- `CollectionEvent` (IoPerfCollection.h, as used throughout the .cpp). -/
inductive CollectionEvent where
  | INIT
  | BOOT_TIME
  | PERIODIC
  | CUSTOM
  | TERMINATED
deriving DecidableEq, Repr

/-- The `message.what` values handled by `handleMessage` (lines 482-523):
the collection events plus the `SwitchEvent::END_CUSTOM_COLLECTION`
sentinel. -/
inductive MessageWhat where
  | collection (event : CollectionEvent)
  | END_CUSTOM_COLLECTION
deriving DecidableEq, Repr

/-- One message pending in the handler looper, to be delivered at `uptime`. -/
structure ScheduledMessage where
  uptime : Nat
  what : MessageWhat
deriving DecidableEq, Repr

/-- The handler looper at its boundary: the monotonic clock `now()` and the
queue of messages pending for this handler. -/
structure LooperState where
  now : Nat
  pending : List ScheduledMessage
deriving DecidableEq, Repr

/-- `sendMessage` (immediate delivery at the current uptime). -/
def LooperState.sendMessage (l : LooperState) (what : MessageWhat) : LooperState :=
  { l with pending := l.pending ++ [⟨l.now, what⟩] }

/-- `sendMessageAtTime`. -/
def LooperState.sendMessageAtTime (l : LooperState) (uptime : Nat) (what : MessageWhat) :
    LooperState :=
  { l with pending := l.pending ++ [⟨uptime, what⟩] }

/-- `removeMessages(this)`: drop every message pending for this handler. -/
def LooperState.removeMessages (l : LooperState) : LooperState :=
  { l with pending := [] }

/-- The constants of IoPerfCollection.h, absent from src/ and therefore kept
symbolic: the interval floor, the boot-time and periodic intervals, the
periodic ring cap, and `mTopNStatsPerCategory`.  `sizeMax` stands for
`std::numeric_limits<std::size_t>::max()`. -/
structure Config where
  kMinCollectionInterval : Nat
  kBoottimeCollectionInterval : Nat
  kPeriodicCollectionInterval : Nat
  kPeriodicCollectionBufferSize : Nat
  topNStatsPerCategory : Nat
deriving DecidableEq, Repr

/-- `std::numeric_limits<std::size_t>::max()` on a 64-bit target. -/
def sizeMax : Nat := 2 ^ 64 - 1

/-- The fields of `IoPerfCollection` that the scheduler mutates under
`mMutex`, plus the looper boundary and a flag standing for
`mCollectionThread.joinable()`. -/
structure ServiceState where
  currCollectionEvent : CollectionEvent
  boottimeCollection : CollectionInfo
  periodicCollection : CollectionInfo
  customCollection : CollectionInfo
  lastMajorFaults : Nat
  looper : LooperState
  threadJoinable : Bool
deriving DecidableEq, Repr

/-- The `CollectionInfo` member that `handleMessage` pairs with each
collection event (lines 486-493).  `INIT` and `TERMINATED` never reach
`processCollectionEvent`; they are mapped to the custom slot vacuously. -/
def ServiceState.getInfo (s : ServiceState) : CollectionEvent → CollectionInfo
  | .BOOT_TIME => s.boottimeCollection
  | .PERIODIC => s.periodicCollection
  | _ => s.customCollection

/-- Writes back the `CollectionInfo` member paired with the event. -/
def ServiceState.setInfo (s : ServiceState) (event : CollectionEvent)
    (info : CollectionInfo) : ServiceState :=
  match event with
  | .BOOT_TIME => { s with boottimeCollection := info }
  | .PERIODIC => { s with periodicCollection := info }
  | _ => { s with customCollection := info }

/-- `start()` (lines 215-270): reject when the event is not `INIT` or the
collection thread is already joinable; otherwise install the boot-time and
periodic infos and run the spawned thread's first critical section (switch to
`BOOT_TIME`, stamp the boot-time info with `now()`, post the first boot-time
message). -/
def start (cfg : Config) (s : ServiceState) : Except String Unit × ServiceState :=
  if s.currCollectionEvent ≠ CollectionEvent.INIT || s.threadJoinable then
    (.error "Cannot start I/O performance collection more than once", s)
  else
    let s := { s with
      boottimeCollection := ⟨cfg.kBoottimeCollectionInterval, sizeMax, 0, []⟩
      periodicCollection :=
        ⟨cfg.kPeriodicCollectionInterval, cfg.kPeriodicCollectionBufferSize, 0, []⟩
      threadJoinable := true }
    let s := { s with
      currCollectionEvent := CollectionEvent.BOOT_TIME
      boottimeCollection := { s.boottimeCollection with lastCollectionUptime := s.looper.now }
      looper := s.looper.sendMessage (.collection .BOOT_TIME) }
    (.ok (), s)

/-- `terminate()` (lines 272-287): return at once when already terminated;
otherwise mark the event terminated and, when the collection thread is
joinable, remove the pending messages, wake the looper and join the thread
(modelled by clearing the joinable flag). -/
def terminate (s : ServiceState) : ServiceState :=
  if s.currCollectionEvent = CollectionEvent.TERMINATED then s
  else
    let s := { s with currCollectionEvent := CollectionEvent.TERMINATED }
    if s.threadJoinable then
      { s with looper := s.looper.removeMessages, threadJoinable := false }
    else s

/-- `onBootFinished()` (lines 289-302): reject outside `BOOT_TIME`;
otherwise drop the pending messages, switch to `PERIODIC`, stamp the periodic
info with `now()` and post the first periodic message. -/
def onBootFinished (s : ServiceState) : Except String Unit × ServiceState :=
  if s.currCollectionEvent ≠ CollectionEvent.BOOT_TIME then
    (.error "Current I/O performance data collection event is not BOOT_TIME", s)
  else
    (.ok (),
     { s with
       currCollectionEvent := CollectionEvent.PERIODIC
       periodicCollection :=
         { s.periodicCollection with lastCollectionUptime := s.looper.now }
       looper := s.looper.removeMessages.sendMessage (.collection .PERIODIC) })

/-- `startCustomCollection(interval, maxDuration)` (lines 425-455): reject
when either duration is below the interval floor or the event is not
`PERIODIC`; otherwise reset the custom info, drop the pending messages,
schedule the guard timer at `now() + maxDuration`, switch to `CUSTOM` and
post the first custom message. -/
def startCustomCollection (cfg : Config) (interval maxDuration : Nat)
    (s : ServiceState) : Except String Unit × ServiceState :=
  if interval < cfg.kMinCollectionInterval || maxDuration < cfg.kMinCollectionInterval then
    (.error "Collection interval and maximum duration too small", s)
  else if s.currCollectionEvent ≠ CollectionEvent.PERIODIC then
    (.error "Cannot start a custom collection when the current event is not PERIODIC", s)
  else
    (.ok (),
     { s with
       customCollection := ⟨interval, sizeMax, s.looper.now, []⟩
       currCollectionEvent := CollectionEvent.CUSTOM
       looper :=
         ((s.looper.removeMessages.sendMessageAtTime (s.looper.now + maxDuration)
             .END_CUSTOM_COLLECTION).sendMessage (.collection .CUSTOM)) })

/-- `endCustomCollection(fd)` (lines 457-480): reject when the event is not
`CUSTOM`; otherwise drop the pending messages and post
`END_CUSTOM_COLLECTION` (the report dump itself belongs to the excluded dump
layer). -/
def endCustomCollection (s : ServiceState) : Except String Unit × ServiceState :=
  if s.currCollectionEvent ≠ CollectionEvent.CUSTOM then
    (.error "No custom collection is running", s)
  else
    (.ok (),
     { s with looper := s.looper.removeMessages.sendMessage .END_CUSTOM_COLLECTION })

/-- `processCollectionEvent(event, info)` (lines 525-553): silently succeed
on a stale event; fail on a zero cache cap or an interval below the floor;
otherwise run one collection pass and, on success, advance
`lastCollectionUptime` by the interval and schedule the next message of this
event at the advanced uptime. -/
def processCollectionEvent (cfg : Config) (env : StatSourceEnv)
    (mapping : List (Nat × String)) (time : Nat) (event : CollectionEvent)
    (s : ServiceState) : Except String Unit × ServiceState :=
  if s.currCollectionEvent ≠ event then (.ok (), s)
  else
    let info := s.getInfo event
    if info.maxCacheSize = 0 then
      (.error "Maximum cache size cannot be 0", s)
    else if info.interval < cfg.kMinCollectionInterval then
      (.error "Collection interval cannot be less than the minimum", s)
    else
      match collectLocked env cfg.topNStatsPerCategory mapping time info s.lastMajorFaults with
      | .error e => (.error ("collection failed: " ++ e), s)
      | .ok (info, lmf) =>
        let info := { info with lastCollectionUptime := info.lastCollectionUptime + info.interval }
        let s := s.setInfo event info
        (.ok (),
         { s with
           lastMajorFaults := lmf
           looper := s.looper.sendMessageAtTime info.lastCollectionUptime (.collection event) })

/-- The `END_CUSTOM_COLLECTION` arm of `handleMessage` (lines 495-509):
no-op unless the current event is `CUSTOM`; otherwise value-initialize the
custom info, drop the pending messages, resume `PERIODIC` stamped at `now()`
and post a periodic message. -/
def handleEndCustomCollection (s : ServiceState) : ServiceState :=
  if s.currCollectionEvent ≠ CollectionEvent.CUSTOM then s
  else
    { s with
      customCollection := CollectionInfo.empty
      currCollectionEvent := CollectionEvent.PERIODIC
      periodicCollection := { s.periodicCollection with lastCollectionUptime := s.looper.now }
      looper := s.looper.removeMessages.sendMessage (.collection .PERIODIC) }

/-- `handleMessage` (lines 482-523): dispatch the three collection events to
`processCollectionEvent` and the switch event to its own arm; any error
terminates the collection in place (the event becomes `TERMINATED`, the
pending messages are removed and the looper is woken) without joining the
thread. -/
def handleMessage (cfg : Config) (env : StatSourceEnv)
    (mapping : List (Nat × String)) (time : Nat) (msg : MessageWhat)
    (s : ServiceState) : ServiceState :=
  let step : Except String Unit × ServiceState :=
    match msg with
    | .collection .BOOT_TIME => processCollectionEvent cfg env mapping time .BOOT_TIME s
    | .collection .PERIODIC => processCollectionEvent cfg env mapping time .PERIODIC s
    | .collection .CUSTOM => processCollectionEvent cfg env mapping time .CUSTOM s
    | .END_CUSTOM_COLLECTION => (.ok (), handleEndCustomCollection s)
    | .collection _ => (.error "Unknown message", s)
  match step with
  | (.ok _, s) => s
  | (.error _, s) =>
    { s with
      currCollectionEvent := CollectionEvent.TERMINATED
      looper := s.looper.removeMessages }

/-- A sequence of collection ticks on one `CollectionInfo`: each tick carries
the stat-source outcomes and the wall-clock stamp of that tick, and a tick
whose `collectLocked` fails leaves the ring untouched (the caller receives
the error and appends nothing). -/
def runTicks (n : Nat) (mapping : List (Nat × String))
    (ticks : List (StatSourceEnv × Nat)) (info : CollectionInfo) (lmf : Nat) :
    CollectionInfo × Nat :=
  ticks.foldl
    (fun p t =>
      match collectLocked t.1 n mapping t.2 p.1 p.2 with
      | .error _ => p
      | .ok q => q)
    (info, lmf)

/-- The ranked byte metric of an emitted uid I/O top-N entry: foreground plus
background bytes (read bytes in `topNReads`, write bytes in `topNWrites`). -/
def UidIoPerfStats.rankedBytes (st : UidIoPerfStats) : Nat :=
  st.bytesFg + st.bytesBg

/-- A tick environment in which only the ProcStat source is enabled and its
read succeeds with zeroed counters. -/
def procStatOnlyEnv : StatSourceEnv :=
  ⟨false, .ok [], true, .ok ⟨0, 0, 0, 0⟩, false, .ok []⟩

/-- One collection tick on a single `CollectionInfo` in the environment where
only ProcStat is enabled; a failing tick would leave the info unchanged. -/
def procStatOnlyTick (info : CollectionInfo) (time : Nat) : CollectionInfo :=
  match collectLocked procStatOnlyEnv 1 [] time info 0 with
  | .error _ => info
  | .ok q => q.1

/-- A periodic `CollectionInfo` with cache cap 1 and an empty ring. -/
def capOneInfo : CollectionInfo :=
  ⟨1000, 1, 0, []⟩

/-- A tick environment in which the uid I/O source is enabled but its read
fails, while ProcStat is enabled and succeeds. -/
def uidIoFailingEnv : StatSourceEnv :=
  ⟨true, .error "eio", true, .ok ⟨0, 0, 0, 0⟩, false, .ok []⟩

/-- A concrete configuration with an interval floor of 1. -/
def smallConfig : Config :=
  ⟨1, 10, 100, 5, 2⟩

/-- A service state sitting in the periodic collection with a valid periodic
info and an empty ring. -/
def periodicState : ServiceState :=
  ⟨.PERIODIC, ⟨10, sizeMax, 0, []⟩, ⟨100, 5, 40, []⟩, CollectionInfo.empty, 0, ⟨70, []⟩, true⟩

/-- A uid with write activity only: its whole usage is nonzero, but its read
byte metric is zero. -/
def writeOnlyUsage : UidIoUsage :=
  ⟨5, ⟨0, 0, 10, 0, 0, 0⟩⟩

/-- A service state sitting in the custom collection with one cached custom
record. -/
def customState : ServiceState :=
  ⟨.CUSTOM, ⟨10, sizeMax, 0, []⟩, ⟨100, 5, 40, []⟩,
   ⟨7, sizeMax, 50, [⟨3, SystemIoPerfData.empty, ProcessIoPerfData.empty, UidIoPerfData.empty⟩]⟩,
   0, ⟨70, [⟨90, .END_CUSTOM_COLLECTION⟩]⟩, true⟩

/-- A service state sitting in the periodic collection whose periodic info
has a zero cache cap. -/
def zeroCapState : ServiceState :=
  ⟨.PERIODIC, ⟨10, sizeMax, 0, []⟩, ⟨100, 0, 40, []⟩, CollectionInfo.empty, 0, ⟨70, []⟩, true⟩

/-- A freshly terminated service state. -/
def terminatedState : ServiceState :=
  ⟨.TERMINATED, CollectionInfo.empty, CollectionInfo.empty, CollectionInfo.empty, 0, ⟨0, []⟩, false⟩

/-- C9: for all non-negative integers value and total, percentage(value,
total) equals value / total * 100 when total is nonzero and equals exactly 0
when total is zero (no division by zero); in particular percentage(0, 0) = 0
and percentage(50, 200) = 25. -/
theorem C9_percentage_spec :
    (∀ v t : Nat, percentage v t = if t = 0 then 0 else ((v : ℚ) / (t : ℚ)) * 100) ∧
    percentage 0 0 = 0 ∧ percentage 50 200 = 25 := by
  refine ⟨fun v t => rfl, by simp [percentage], ?_⟩
  norm_num [percentage]

/-- C4: a tick message whose event does not equal the current collection
event is silently dropped: `processCollectionEvent` returns success, performs
no collection, appends no record, and leaves the whole state unchanged. -/
theorem C4_stale_tick_dropped (cfg : Config) (env : StatSourceEnv)
    (mapping : List (Nat × String)) (time : Nat) (event : CollectionEvent)
    (s : ServiceState) (h : s.currCollectionEvent ≠ event) :
    processCollectionEvent cfg env mapping time event s = (.ok (), s) := by
  simp [processCollectionEvent, h]

/-- Witness for C4: a boot-time tick message landing while the service is in
the periodic collection is dropped with success and no state change. -/
theorem C4_stale_tick_dropped_witness :
    periodicState.currCollectionEvent ≠ CollectionEvent.BOOT_TIME ∧
    processCollectionEvent smallConfig procStatOnlyEnv [] 0 .BOOT_TIME periodicState =
      (.ok (), periodicState) :=
  ⟨by decide, C4_stale_tick_dropped smallConfig procStatOnlyEnv [] 0 .BOOT_TIME periodicState
    (by decide)⟩

/-- C10: `terminate` is idempotent: on an already terminated state it returns
immediately with no change at all, and terminating twice leaves the very same
state as terminating once. -/
theorem C10_terminate_idempotent :
    (∀ s : ServiceState, s.currCollectionEvent = CollectionEvent.TERMINATED →
      terminate s = s) ∧
    (∀ s : ServiceState, terminate (terminate s) = terminate s) := by
  constructor
  · intro s h
    simp [terminate, h]
  · intro s
    by_cases h : s.currCollectionEvent = CollectionEvent.TERMINATED
    · simp [terminate, h]
    · by_cases hj : s.threadJoinable <;> simp [terminate, h, hj]

/-- Witness for C10: terminating an already terminated concrete state changes
nothing. -/
theorem C10_terminate_idempotent_witness :
    terminatedState.currCollectionEvent = CollectionEvent.TERMINATED ∧
    terminate terminatedState = terminatedState :=
  ⟨rfl, C10_terminate_idempotent.1 terminatedState rfl⟩

/-- C7: out-of-sequence API calls are rejected synchronously with an error
and produce no observable state change: `start` outside `INIT`,
`onBootFinished` outside `BOOT_TIME`, `startCustomCollection` outside
`PERIODIC`, and `endCustomCollection` outside `CUSTOM` each return an error
and the identical state (mode, every collection info, and pending schedules
unchanged). -/
theorem C7_sequencing_errors (cfg : Config) (interval maxDuration : Nat)
    (s : ServiceState) :
    (s.currCollectionEvent ≠ CollectionEvent.INIT →
      ∃ m, start cfg s = (.error m, s)) ∧
    (s.currCollectionEvent ≠ CollectionEvent.BOOT_TIME →
      ∃ m, onBootFinished s = (.error m, s)) ∧
    (s.currCollectionEvent ≠ CollectionEvent.PERIODIC →
      ∃ m, startCustomCollection cfg interval maxDuration s = (.error m, s)) ∧
    (s.currCollectionEvent ≠ CollectionEvent.CUSTOM →
      ∃ m, endCustomCollection s = (.error m, s)) := by
  refine ⟨fun h => ?_, fun h => ?_, fun h => ?_, fun h => ?_⟩
  · exact ⟨"Cannot start I/O performance collection more than once", by simp [start, h]⟩
  · exact ⟨"Current I/O performance data collection event is not BOOT_TIME",
      by simp [onBootFinished, h]⟩
  · by_cases hsm :
      interval < cfg.kMinCollectionInterval ∨ maxDuration < cfg.kMinCollectionInterval
    · exact ⟨"Collection interval and maximum duration too small",
        by simp only [startCustomCollection]; rw [if_pos (by simpa using hsm)]⟩
    · exact ⟨"Cannot start a custom collection when the current event is not PERIODIC",
        by simp only [startCustomCollection]
           rw [if_neg (by simpa using hsm), if_pos (by simpa using h)]⟩
  · exact ⟨"No custom collection is running", by simp [endCustomCollection, h]⟩

/-- Witness for C7: each rejection evaluated on concrete states (a periodic
state for `start`, `onBootFinished`, `endCustomCollection`; a custom state
for `startCustomCollection`). -/
theorem C7_sequencing_errors_witness :
    (∃ m, start smallConfig periodicState = (.error m, periodicState)) ∧
    (∃ m, onBootFinished periodicState = (.error m, periodicState)) ∧
    (∃ m, endCustomCollection periodicState = (.error m, periodicState)) ∧
    (∃ m, startCustomCollection smallConfig 1 1 customState = (.error m, customState)) :=
  ⟨(C7_sequencing_errors smallConfig 1 1 periodicState).1 (by decide),
   (C7_sequencing_errors smallConfig 1 1 periodicState).2.1 (by decide),
   (C7_sequencing_errors smallConfig 1 1 periodicState).2.2.2 (by decide),
   (C7_sequencing_errors smallConfig 1 1 customState).2.2.1 (by decide)⟩

/-- C5: handling `END_CUSTOM_COLLECTION` while still in the custom collection
resets the custom `CollectionInfo` to the value-initialized empty state (its
record count becomes 0) and switches to the periodic collection with a
periodic tick posted; when the mode is no longer `CUSTOM` the message changes
nothing. -/
theorem C5_end_custom_collection (cfg : Config) (env : StatSourceEnv)
    (mapping : List (Nat × String)) (time : Nat) (s : ServiceState) :
    (s.currCollectionEvent = CollectionEvent.CUSTOM →
      handleMessage cfg env mapping time .END_CUSTOM_COLLECTION s =
        { s with
          customCollection := CollectionInfo.empty
          currCollectionEvent := CollectionEvent.PERIODIC
          periodicCollection :=
            { s.periodicCollection with lastCollectionUptime := s.looper.now }
          looper := ⟨s.looper.now, [⟨s.looper.now, .collection .PERIODIC⟩]⟩ } ∧
      (handleMessage cfg env mapping time
        .END_CUSTOM_COLLECTION s).customCollection.records.length = 0) ∧
    (s.currCollectionEvent ≠ CollectionEvent.CUSTOM →
      handleMessage cfg env mapping time .END_CUSTOM_COLLECTION s = s) := by
  constructor
  · intro h
    constructor <;>
      simp [handleMessage, handleEndCustomCollection, h, LooperState.removeMessages,
        LooperState.sendMessage, CollectionInfo.empty]
  · intro h
    simp [handleMessage, handleEndCustomCollection, h]

/-- Witness for C5: on a concrete custom state with one cached record the
guard message clears the custom ring; on a concrete periodic state it is a
no-op. -/
theorem C5_end_custom_collection_witness :
    (handleMessage smallConfig procStatOnlyEnv [] 0 .END_CUSTOM_COLLECTION
      customState).customCollection.records.length = 0 ∧
    handleMessage smallConfig procStatOnlyEnv [] 0 .END_CUSTOM_COLLECTION
      periodicState = periodicState :=
  ⟨((C5_end_custom_collection smallConfig procStatOnlyEnv [] 0 customState).1 rfl).2,
   (C5_end_custom_collection smallConfig procStatOnlyEnv [] 0 periodicState).2 (by decide)⟩

/-- C6: a tick whose event matches the current mode but whose active info has
a zero cache cap or an interval below the floor makes the tick handler return
an error with no collection pass (the state is untouched by the handler), and
`handleMessage` then terminates the service, leaving every ring unchanged. -/
theorem C6_invalid_config_fatal (cfg : Config) (env : StatSourceEnv)
    (mapping : List (Nat × String)) (time : Nat) (event : CollectionEvent)
    (s : ServiceState)
    (hev : s.currCollectionEvent = event)
    (hcase : event = CollectionEvent.BOOT_TIME ∨ event = CollectionEvent.PERIODIC ∨
      event = CollectionEvent.CUSTOM)
    (hbad : (s.getInfo event).maxCacheSize = 0 ∨
      (s.getInfo event).interval < cfg.kMinCollectionInterval) :
    (∃ m, processCollectionEvent cfg env mapping time event s = (.error m, s)) ∧
    handleMessage cfg env mapping time (.collection event) s =
      { s with
        currCollectionEvent := CollectionEvent.TERMINATED
        looper := s.looper.removeMessages } := by
  have herr : ∃ m, processCollectionEvent cfg env mapping time event s = (.error m, s) := by
    by_cases hmax : (s.getInfo event).maxCacheSize = 0
    · exact ⟨"Maximum cache size cannot be 0", by simp [processCollectionEvent, hev, hmax]⟩
    · have hint : (s.getInfo event).interval < cfg.kMinCollectionInterval := by
        rcases hbad with h | h
        · exact absurd h hmax
        · exact h
      exact ⟨"Collection interval cannot be less than the minimum",
        by simp [processCollectionEvent, hev, hmax, hint]⟩
  obtain ⟨m, hm⟩ := herr
  refine ⟨⟨m, hm⟩, ?_⟩
  rcases hcase with h | h | h <;> subst h <;> simp [handleMessage, hm]

/-- Witness for C6: a periodic tick on a concrete periodic state whose
periodic info has cache cap 0 errors out and terminates the service. -/
theorem C6_invalid_config_fatal_witness :
    (∃ m, processCollectionEvent smallConfig procStatOnlyEnv [] 0 .PERIODIC zeroCapState =
      (.error m, zeroCapState)) ∧
    handleMessage smallConfig procStatOnlyEnv [] 0 (.collection .PERIODIC) zeroCapState =
      { zeroCapState with
        currCollectionEvent := CollectionEvent.TERMINATED
        looper := zeroCapState.looper.removeMessages } :=
  C6_invalid_config_fatal smallConfig procStatOnlyEnv [] 0 .PERIODIC zeroCapState rfl
    (Or.inr (Or.inl rfl)) (Or.inl rfl)

/-- A successful `collectLocked` only appends one record to the ring: the
result is exactly `appendRecord` of the input info with some record. -/
theorem collectLocked_ok_shape {env : StatSourceEnv} {n : Nat}
    {mapping : List (Nat × String)} {time : Nat} {info : CollectionInfo} {lmf : Nat}
    {info2 : CollectionInfo} {lmf2 : Nat}
    (h : collectLocked env n mapping time info lmf = .ok (info2, lmf2)) :
    ∃ r, info2 = appendRecord info r := by
  unfold collectLocked at h
  split at h
  · simp at h
  · cases hsys : collectSystemIoPerfData env with
    | error e => rw [hsys] at h; simp at h
    | ok sys =>
      rw [hsys] at h
      cases hproc : collectProcessStep env n mapping lmf with
      | error e => rw [hproc] at h; simp at h
      | ok pl =>
        rw [hproc] at h
        cases hu : collectUidIoStep env n mapping with
        | error e => rw [hu] at h; simp at h
        | ok uidio =>
          rw [hu] at h
          obtain ⟨pd, l2⟩ := pl
          simp only [Except.ok.injEq, Prod.mk.injEq] at h
          exact ⟨⟨time, sys, pd, uidio⟩, h.1.symm⟩

/-- `appendRecord` leaves the interval, cache cap, and last collection uptime
untouched; it only changes the ring. -/
theorem appendRecord_fields (info : CollectionInfo) (r : IoPerfRecord) :
    (appendRecord info r).interval = info.interval ∧
    (appendRecord info r).maxCacheSize = info.maxCacheSize ∧
    (appendRecord info r).lastCollectionUptime = info.lastCollectionUptime := by
  refine ⟨?_, ?_, ?_⟩ <;> simp [appendRecord]

/-- Reading back the info slot just written. -/
theorem getInfo_setInfo (s : ServiceState) (event : CollectionEvent)
    (info : CollectionInfo) : (s.setInfo event info).getInfo event = info := by
  cases event <;> rfl

/-- Writing an info slot does not touch the looper. -/
theorem looper_setInfo (s : ServiceState) (event : CollectionEvent)
    (info : CollectionInfo) : (s.setInfo event info).looper = s.looper := by
  cases event <;> rfl

/-- C8: after a successful collection pass for the current event, the stored
last-collection uptime is advanced by exactly the configured interval, and
the next tick for this event is scheduled precisely at that advanced uptime
(old uptime plus interval) — independent of the looper clock at which the
tick actually fired. -/
theorem C8_monotonic_reschedule (cfg : Config) (env : StatSourceEnv)
    (mapping : List (Nat × String)) (time : Nat) (event : CollectionEvent)
    (s : ServiceState) (info2 : CollectionInfo) (lmf2 : Nat)
    (hev : s.currCollectionEvent = event)
    (hmax : ¬ (s.getInfo event).maxCacheSize = 0)
    (hint : ¬ (s.getInfo event).interval < cfg.kMinCollectionInterval)
    (hcol : collectLocked env cfg.topNStatsPerCategory mapping time (s.getInfo event)
      s.lastMajorFaults = .ok (info2, lmf2)) :
    ((processCollectionEvent cfg env mapping time event s).2.getInfo
        event).lastCollectionUptime =
      (s.getInfo event).lastCollectionUptime + (s.getInfo event).interval ∧
    (processCollectionEvent cfg env mapping time event s).2.looper.pending =
      s.looper.pending ++
        [⟨(s.getInfo event).lastCollectionUptime + (s.getInfo event).interval,
          .collection event⟩] := by
  obtain ⟨r, hr⟩ := collectLocked_ok_shape hcol
  obtain ⟨hi, hc, hu⟩ := appendRecord_fields (s.getInfo event) r
  have hne : ¬ s.currCollectionEvent ≠ event := by simp [hev]
  simp only [processCollectionEvent, if_neg hne, if_neg hmax, if_neg hint, hcol]
  subst hr
  constructor
  · cases event <;>
      simp [ServiceState.getInfo, ServiceState.setInfo, appendRecord]
  · cases event <;>
      simp [ServiceState.getInfo, ServiceState.setInfo, LooperState.sendMessageAtTime,
        appendRecord]

/-- Witness for C8: on the concrete periodic state (last uptime 40, interval
100, looper clock 70) the next periodic tick is scheduled at 140 = 40 + 100,
not at 70 + 100. -/
theorem C8_monotonic_reschedule_witness :
    ((processCollectionEvent smallConfig procStatOnlyEnv [] 0 .PERIODIC
        periodicState).2.getInfo .PERIODIC).lastCollectionUptime = 140 ∧
    (processCollectionEvent smallConfig procStatOnlyEnv [] 0 .PERIODIC
        periodicState).2.looper.pending = [⟨140, .collection .PERIODIC⟩] := by
  have h := C8_monotonic_reschedule smallConfig procStatOnlyEnv [] 0 .PERIODIC periodicState
    ⟨100, 5, 40,
      [⟨0, SystemIoPerfData.empty, ProcessIoPerfData.empty, UidIoPerfData.empty⟩]⟩ 0
    rfl (by decide) (by decide) (by rfl)
  refine ⟨?_, ?_⟩
  · have := h.1
    simpa [periodicState, ServiceState.getInfo] using this
  · have := h.2
    simpa [periodicState, ServiceState.getInfo] using this

/-- Counterexample to C1 as stated: on a ring with cache cap 1, the second
append performed by `collectLocked` evicts nothing (the eviction check is
`size > maxCacheSize` before appending), so after the (maxCacheSize + 1)-th
append the ring holds 2 records: `len(records) <= maxCacheSize` fails and the
oldest record is still present. -/
theorem C1_ring_bound_counterexample :
    capOneInfo.maxCacheSize = 1 ∧
    (procStatOnlyTick (procStatOnlyTick capOneInfo 0) 1).records.length = 2 ∧
    (procStatOnlyTick (procStatOnlyTick capOneInfo 0) 1).records.head? =
      (procStatOnlyTick capOneInfo 0).records.head? :=
  ⟨rfl, by decide, by decide⟩

/-- A successful `collectLocked` keeps the cache cap, keeps the ring length
within `maxCacheSize + 1` whenever it was within that bound before, and, when
the ring already holds `maxCacheSize + 1` records, evicts exactly the oldest
record while appending the new one. -/
theorem collectLocked_bound {env : StatSourceEnv} {n : Nat}
    {mapping : List (Nat × String)} {time : Nat} {info : CollectionInfo} {lmf : Nat}
    {info2 : CollectionInfo} {lmf2 : Nat}
    (h : collectLocked env n mapping time info lmf = .ok (info2, lmf2)) :
    info2.maxCacheSize = info.maxCacheSize ∧
    (info.records.length ≤ info.maxCacheSize + 1 →
      info2.records.length ≤ info.maxCacheSize + 1) ∧
    (info.records.length = info.maxCacheSize + 1 →
      ∃ r, info2.records = info.records.drop 1 ++ [r]) := by
  obtain ⟨r, hr⟩ := collectLocked_ok_shape h
  subst hr
  refine ⟨(appendRecord_fields info r).2.1, ?_, ?_⟩
  · intro hb
    by_cases hlt : info.maxCacheSize < info.records.length
    · have h1 : 1 ≤ info.records.length := Nat.lt_of_le_of_lt (Nat.zero_le _) hlt
      simp only [appendRecord, if_pos hlt, List.length_append, List.length_drop,
        List.length_singleton]
      omega
    · simp only [appendRecord, if_neg hlt, List.length_append, List.length_singleton]
      omega
  · intro hb
    have hlt : info.maxCacheSize < info.records.length := by omega
    exact ⟨r, by simp [appendRecord, if_pos hlt]⟩

/-- Over any tick sequence, `runTicks` preserves the cache cap and the
`maxCacheSize + 1` ring bound. -/
theorem runTicks_bound (n : Nat) (mapping : List (Nat × String)) :
    ∀ (ticks : List (StatSourceEnv × Nat)) (info : CollectionInfo) (lmf : Nat),
      info.records.length ≤ info.maxCacheSize + 1 →
      (runTicks n mapping ticks info lmf).1.maxCacheSize = info.maxCacheSize ∧
      (runTicks n mapping ticks info lmf).1.records.length ≤ info.maxCacheSize + 1 := by
  intro ticks
  induction ticks with
  | nil => intro info lmf hb; exact ⟨rfl, hb⟩
  | cons t ts ih =>
    intro info lmf hb
    have hstep : runTicks n mapping (t :: ts) info lmf =
        runTicks n mapping ts
          (match collectLocked t.1 n mapping t.2 info lmf with
           | .error _ => (info, lmf)
           | .ok q => q).1
          (match collectLocked t.1 n mapping t.2 info lmf with
           | .error _ => (info, lmf)
           | .ok q => q).2 := rfl
    cases hc : collectLocked t.1 n mapping t.2 info lmf with
    | error e =>
      rw [hstep, hc]
      exact ih info lmf hb
    | ok q =>
      rw [hstep, hc]
      obtain ⟨info2, lmf2⟩ := q
      obtain ⟨hcap, hlen, _⟩ := collectLocked_bound hc
      have := ih info2 lmf2 (by rw [hcap]; exact hlen hb)
      rw [hcap] at this
      exact this

/-- C1 amended: the ring bound that actually holds is
`len(records) <= maxCacheSize + 1`.  A successful append keeps the ring
within that bound, and once the ring holds `maxCacheSize + 1` records each
further append evicts exactly one record, the oldest (FIFO); consequently
every tick sequence started on an empty ring keeps
`len(records) <= maxCacheSize + 1`. -/
theorem C1_ring_bound_amended :
    (∀ (env : StatSourceEnv) (n : Nat) (mapping : List (Nat × String)) (time : Nat)
      (info : CollectionInfo) (lmf : Nat) (info2 : CollectionInfo) (lmf2 : Nat),
      collectLocked env n mapping time info lmf = .ok (info2, lmf2) →
      (info2.maxCacheSize = info.maxCacheSize ∧
       (info.records.length ≤ info.maxCacheSize + 1 →
         info2.records.length ≤ info.maxCacheSize + 1) ∧
       (info.records.length = info.maxCacheSize + 1 →
         ∃ r, info2.records = info.records.drop 1 ++ [r]))) ∧
    (∀ (n : Nat) (mapping : List (Nat × String)) (ticks : List (StatSourceEnv × Nat))
      (info : CollectionInfo) (lmf : Nat),
      info.records = [] →
      (runTicks n mapping ticks info lmf).1.records.length ≤ info.maxCacheSize + 1) := by
  constructor
  · intro env n mapping time info lmf info2 lmf2 h
    exact collectLocked_bound h
  · intro n mapping ticks info lmf hinit
    exact (runTicks_bound n mapping ticks info lmf (by simp [hinit])).2

/-- Witness for the amended C1: three ticks on the cap-1 ring stay within
cap + 1 = 2 records, and a tick on a full (2-record) cap-1 ring evicts
exactly the oldest record. -/
theorem C1_ring_bound_amended_witness :
    (runTicks 1 [] [(procStatOnlyEnv, 0), (procStatOnlyEnv, 1), (procStatOnlyEnv, 2)]
      capOneInfo 0).1.records.length ≤ 2 ∧
    (∃ r, (procStatOnlyTick (procStatOnlyTick (procStatOnlyTick capOneInfo 0) 1) 2).records =
      (procStatOnlyTick (procStatOnlyTick capOneInfo 0) 1).records.drop 1 ++ [r]) := by
  constructor
  · have := C1_ring_bound_amended.2 1 []
      [(procStatOnlyEnv, 0), (procStatOnlyEnv, 1), (procStatOnlyEnv, 2)] capOneInfo 0 rfl
    simpa [capOneInfo] using this
  · have := C1_ring_bound_amended.1 procStatOnlyEnv 1 [] 2
      (procStatOnlyTick (procStatOnlyTick capOneInfo 0) 1) 0
      (procStatOnlyTick (procStatOnlyTick (procStatOnlyTick capOneInfo 0) 1) 2) 0
    exact (this (by decide)).2.2 (by decide)

/-- Counterexample to C2 as stated: with the uid I/O source enabled but its
read failing (and ProcStat enabled and healthy), the tick does not complete:
`collectLocked` returns an error, no record is produced, and handling the
tick terminates the service even though an enabled, healthy source remains. -/
theorem C2_source_failure_counterexample :
    uidIoFailingEnv.uidIoEnabled = true ∧
    uidIoFailingEnv.procStatEnabled = true ∧
    collectLocked uidIoFailingEnv 2 [] 0 periodicState.periodicCollection 0 =
      .error "Failed to collect uid I/O usage: eio" ∧
    (handleMessage smallConfig uidIoFailingEnv [] 0 (.collection .PERIODIC)
      periodicState).currCollectionEvent = CollectionEvent.TERMINATED ∧
    (handleMessage smallConfig uidIoFailingEnv [] 0 (.collection .PERIODIC)
      periodicState).periodicCollection.records = [] :=
  ⟨rfl, rfl, by decide, by decide, by decide⟩

/-- A tick handler that returns an error leaves the state exactly as it
was. -/
theorem processCollectionEvent_error_snd (cfg : Config) (env : StatSourceEnv)
    (mapping : List (Nat × String)) (time : Nat) (event : CollectionEvent)
    (s : ServiceState)
    (h : ∃ m, (processCollectionEvent cfg env mapping time event s).1 = .error m) :
    (processCollectionEvent cfg env mapping time event s).2 = s := by
  obtain ⟨m, h⟩ := h
  by_cases h1 : s.currCollectionEvent ≠ event
  · simp [processCollectionEvent, h1] at h
  · by_cases h2 : (s.getInfo event).maxCacheSize = 0
    · simp [processCollectionEvent, h1, h2]
    · by_cases h3 : (s.getInfo event).interval < cfg.kMinCollectionInterval
      · simp [processCollectionEvent, h1, h2, h3]
      · cases hc : collectLocked env cfg.topNStatsPerCategory mapping time
          (s.getInfo event) s.lastMajorFaults with
        | error e => simp [processCollectionEvent, h1, h2, h3, hc]
        | ok q =>
          obtain ⟨i2, l2⟩ := q
          simp [processCollectionEvent, h1, h2, h3, hc] at h

/-- C2 amended: a disabled stat source is tolerated — its category is simply
skipped and the tick completes from the remaining sources — and the tick
succeeds exactly when at least one source is enabled and every enabled
source's read succeeds.  A `collect()` read failure from an enabled source
(like the all-disabled case) is fatal: the tick fails, no record is appended,
and handling the failed tick terminates the service with the rings
unchanged. -/
theorem C2_source_failure_semantics :
    (∀ (env : StatSourceEnv) (n : Nat) (mapping : List (Nat × String)) (time : Nat)
      (info : CollectionInfo) (lmf : Nat),
      (∃ p, collectLocked env n mapping time info lmf = .ok p) ↔
        ((env.uidIoEnabled = true ∨ env.procStatEnabled = true ∨
            env.procPidEnabled = true) ∧
         (env.uidIoEnabled = true → ∃ v, env.uidIoResult = .ok v) ∧
         (env.procStatEnabled = true → ∃ v, env.procStatResult = .ok v) ∧
         (env.procPidEnabled = true → ∃ v, env.procPidResult = .ok v))) ∧
    (∀ (cfg : Config) (env : StatSourceEnv) (mapping : List (Nat × String))
      (time : Nat) (event : CollectionEvent) (s : ServiceState) (m : String),
      (event = CollectionEvent.BOOT_TIME ∨ event = CollectionEvent.PERIODIC ∨
        event = CollectionEvent.CUSTOM) →
      (processCollectionEvent cfg env mapping time event s).1 = .error m →
      handleMessage cfg env mapping time (.collection event) s =
        { s with
          currCollectionEvent := CollectionEvent.TERMINATED
          looper := s.looper.removeMessages }) := by
  refine ⟨?_, ?_⟩
  · intro env n mapping time info lmf
    obtain ⟨ue, ur, pe, pr, de, dr⟩ := env
    cases ue <;> cases pe <;> cases de <;> cases ur <;> cases pr <;> cases dr <;>
      simp [collectLocked, collectSystemIoPerfData, collectProcessStep, collectUidIoStep]
  · intro cfg env mapping time event s m hcase herr
    have hsnd := processCollectionEvent_error_snd cfg env mapping time event s ⟨m, herr⟩
    have hfull : processCollectionEvent cfg env mapping time event s = (.error m, s) := by
      have heta : processCollectionEvent cfg env mapping time event s =
          ((processCollectionEvent cfg env mapping time event s).1,
           (processCollectionEvent cfg env mapping time event s).2) := rfl
      rw [heta, herr, hsnd]
    rcases hcase with h | h | h <;> subst h <;> simp [handleMessage, hfull]

/-- Witness for the amended C2: the concrete failing tick terminates the
service with the rings unchanged, and a tick in the environment where only
ProcStat is enabled (the other two sources disabled) succeeds. -/
theorem C2_source_failure_semantics_witness :
    handleMessage smallConfig uidIoFailingEnv [] 0 (.collection .PERIODIC) periodicState =
      { periodicState with
        currCollectionEvent := CollectionEvent.TERMINATED
        looper := periodicState.looper.removeMessages } ∧
    (∃ p, collectLocked procStatOnlyEnv 1 [] 0 capOneInfo 0 = .ok p) := by
  constructor
  · exact C2_source_failure_semantics.2 smallConfig uidIoFailingEnv [] 0 .PERIODIC
      periodicState "collection failed: Failed to collect uid I/O usage: eio"
      (Or.inr (Or.inl rfl)) (by decide)
  · refine (C2_source_failure_semantics.1 procStatOnlyEnv 1 [] 0 capOneInfo 0).mpr
      ⟨Or.inr (Or.inl rfl), ?_, ?_, ?_⟩
    · intro h; exact absurd h (by decide)
    · intro _; exact ⟨⟨0, 0, 0, 0⟩, rfl⟩
    · intro h; exact absurd h (by decide)

/-- The bounded insertion never changes the length of the candidate list. -/
theorem length_insertTop {α : Type} (key : α → Nat) (x : α) (l : List α) :
    (insertTop key x l).length = l.length := by
  induction l with
  | nil => rfl
  | cons y ys ih =>
    simp only [insertTop]
    split
    · simpa using ih
    · simp [List.length_dropLast]

/-- Every member of the candidate list after a bounded insertion is the new
entry or an old member. -/
theorem mem_insertTop {α : Type} {key : α → Nat} {x z : α} {l : List α}
    (h : z ∈ insertTop key x l) : z = x ∨ z ∈ l := by
  induction l with
  | nil => simp [insertTop] at h
  | cons y ys ih =>
    simp only [insertTop] at h
    split at h
    · rcases List.mem_cons.1 h with h1 | h1
      · exact Or.inr (by simp [h1])
      · rcases ih h1 with h2 | h2
        · exact Or.inl h2
        · exact Or.inr (List.mem_cons_of_mem _ h2)
    · rcases List.mem_cons.1 h with h1 | h1
      · exact Or.inl h1
      · exact Or.inr ((List.dropLast_sublist _).mem h1)

/-- The bounded insertion keeps the candidate list sorted in non-increasing
key order. -/
theorem pairwise_insertTop {α : Type} {key : α → Nat} {x : α} {l : List α}
    (h : l.Pairwise (fun a b => key b ≤ key a)) :
    (insertTop key x l).Pairwise (fun a b => key b ≤ key a) := by
  induction l with
  | nil => simp [insertTop]
  | cons y ys ih =>
    rw [List.pairwise_cons] at h
    obtain ⟨hy, hys⟩ := h
    simp only [insertTop]
    split
    next hgt =>
      rw [List.pairwise_cons]
      refine ⟨?_, ih hys⟩
      intro z hz
      rcases mem_insertTop hz with h1 | h1
      · subst h1; exact Nat.le_of_lt hgt
      · exact hy z h1
    next hle =>
      have hxy : key y ≤ key x := Nat.le_of_not_lt hle
      rw [List.pairwise_cons]
      constructor
      · intro z hz
        have hz2 : z ∈ y :: ys := (List.dropLast_sublist _).mem hz
        rcases List.mem_cons.1 hz2 with rfl | hz3
        · exact hxy
        · exact Nat.le_trans (hy z hz3) hxy
      · exact (List.pairwise_cons.2 ⟨hy, hys⟩).sublist (List.dropLast_sublist _)

/-- When some member's key is not above the new entry's key, the bounded
insertion displaces exactly the last element: the result is a permutation of
the new entry together with the list minus its last element. -/
theorem insertTop_perm {α : Type} {key : α → Nat} {x : α} {l : List α}
    (h : ∃ y ∈ l, key y ≤ key x) :
    (insertTop key x l).Perm (x :: l.dropLast) := by
  induction l with
  | nil => simp at h
  | cons y ys ih =>
    simp only [insertTop]
    split
    next hgt =>
      obtain ⟨w, hw, hkw⟩ := h
      rcases List.mem_cons.1 hw with rfl | hw2
      · exact absurd hgt (Nat.not_lt_of_le hkw)
      · have hys : ∃ z ∈ ys, key z ≤ key x := ⟨w, hw2, hkw⟩
        have hne : ys ≠ [] := by rintro rfl; simp at hw2
        have hdl : (y :: ys).dropLast = y :: ys.dropLast := by
          cases ys with
          | nil => exact absurd rfl hne
          | cons a as => rfl
        rw [hdl]
        exact ((ih hys).cons y).trans (List.Perm.swap x y ys.dropLast)
    next =>
      exact List.Perm.refl _

/-- In a non-increasingly sorted list the last element is a minimum. -/
theorem sorted_getLast_min {α : Type} {key : α → Nat} {l : List α}
    (h : l.Pairwise (fun a b => key b ≤ key a)) (hne : l ≠ []) :
    ∀ z ∈ l, key (l.getLast hne) ≤ key z := by
  induction l with
  | nil => exact absurd rfl hne
  | cons y ys ih =>
    rw [List.pairwise_cons] at h
    obtain ⟨hy, hys⟩ := h
    intro z hz
    cases ys with
    | nil =>
      rcases List.mem_cons.1 hz with rfl | hz2
      · exact Nat.le_refl _
      · simp at hz2
    | cons w ws =>
      have hne2 : w :: ws ≠ [] := by simp
      have hlast : (y :: w :: ws).getLast hne = (w :: ws).getLast hne2 :=
        List.getLast_cons hne2
      rcases List.mem_cons.1 hz with rfl | hz2
      · rw [hlast]
        exact hy _ (List.getLast_mem hne2)
      · rw [hlast]
        exact ih hys hne2 z hz2

/-- A fold whose every step either keeps the accumulator or performs a
bounded insertion preserves the accumulator's length. -/
theorem foldl_insertTop_length {α : Type} (key : α → Nat)
    (step : List α → α → List α)
    (hstep : ∀ acc u, step acc u = acc ∨ step acc u = insertTop key u acc) :
    ∀ (us : List α) (init : List α), (us.foldl step init).length = init.length := by
  intro us
  induction us with
  | nil => intro init; rfl
  | cons u us ih =>
    intro init
    rw [List.foldl_cons]
    rcases hstep init u with h | h <;> rw [h, ih]
    rw [length_insertTop]

/-- A fold whose every step either keeps the accumulator or performs a
bounded insertion preserves sortedness in non-increasing key order. -/
theorem foldl_insertTop_pairwise {α : Type} (key : α → Nat)
    (step : List α → α → List α)
    (hstep : ∀ acc u, step acc u = acc ∨ step acc u = insertTop key u acc) :
    ∀ (us : List α) (init : List α),
      init.Pairwise (fun a b => key b ≤ key a) →
      (us.foldl step init).Pairwise (fun a b => key b ≤ key a) := by
  intro us
  induction us with
  | nil => intro init h; exact h
  | cons u us ih =>
    intro init h
    rw [List.foldl_cons]
    rcases hstep init u with he | he <;> rw [he]
    · exact ih init h
    · exact ih _ (pairwise_insertTop h)

/-- Every member of such a fold's result is an initial member or one of the
folded entries. -/
theorem foldl_insertTop_mem {α : Type} (key : α → Nat)
    (step : List α → α → List α)
    (hstep : ∀ acc u, step acc u = acc ∨ step acc u = insertTop key u acc) :
    ∀ (us : List α) (init : List α) (z : α),
      z ∈ us.foldl step init → z ∈ init ∨ z ∈ us := by
  intro us
  induction us with
  | nil => intro init z h; exact Or.inl h
  | cons u us ih =>
    intro init z h
    rw [List.foldl_cons] at h
    rcases ih _ z h with h1 | h1
    · rcases hstep init u with he | he <;> rw [he] at h1
      · exact Or.inl h1
      · rcases mem_insertTop h1 with h2 | h2
        · exact Or.inr (by simp [h2])
        · exact Or.inl h2
    · exact Or.inr (List.mem_cons_of_mem _ h1)

/-- The uid ranking step keeps or inserts. -/
theorem rankUid_step_cases (key : UidIoUsage → Nat) :
    ∀ (acc : List UidIoUsage) (u : UidIoUsage),
      (if u.ios.isZero then acc else insertTop key u acc) = acc ∨
      (if u.ios.isZero then acc else insertTop key u acc) = insertTop key u acc := by
  intro acc u
  by_cases h : u.ios.isZero
  · exact Or.inl (by simp [h])
  · exact Or.inr (by simp [h])

/-- The uid candidate list always has exactly `mTopNStatsPerCategory`
entries. -/
theorem rankUidCandidates_length (n : Nat) (key : UidIoUsage → Nat)
    (usages : List UidIoUsage) : (rankUidCandidates n key usages).length = n := by
  unfold rankUidCandidates
  rw [foldl_insertTop_length key _ (rankUid_step_cases key) usages]
  exact List.length_replicate n tempUsage

/-- The uid candidate list is sorted in non-increasing key order. -/
theorem rankUidCandidates_pairwise (n : Nat) (key : UidIoUsage → Nat)
    (usages : List UidIoUsage) :
    (rankUidCandidates n key usages).Pairwise (fun a b => key b ≤ key a) :=
  foldl_insertTop_pairwise key _ (rankUid_step_cases key) usages _
    (List.pairwise_replicate.2 (Or.inr (Nat.le_refl _)))

/-- Every uid candidate is the zero sentinel or one of the input usages. -/
theorem rankUidCandidates_mem {n : Nat} {key : UidIoUsage → Nat}
    {usages : List UidIoUsage} {z : UidIoUsage}
    (h : z ∈ rankUidCandidates n key usages) : z = tempUsage ∨ z ∈ usages := by
  rcases foldl_insertTop_mem key _ (rankUid_step_cases key) usages _ z h with h1 | h1
  · exact Or.inl (List.eq_of_mem_replicate h1)
  · exact Or.inr h1

/-- The process candidate list always has exactly `mTopNStatsPerCategory`
entries. -/
theorem rankProcessCandidates_length (n : Nat) (key : UidProcessStats → Nat)
    (stats : List UidProcessStats) :
    (rankProcessCandidates n key stats).length = n := by
  unfold rankProcessCandidates
  rw [foldl_insertTop_length key _ (fun _ _ => Or.inr rfl) stats]
  exact List.length_replicate n tempProcessStats

/-- The process candidate list is sorted in non-increasing key order. -/
theorem rankProcessCandidates_pairwise (n : Nat) (key : UidProcessStats → Nat)
    (stats : List UidProcessStats) :
    (rankProcessCandidates n key stats).Pairwise (fun a b => key b ≤ key a) :=
  foldl_insertTop_pairwise key _ (fun _ _ => Or.inr rfl) stats _
    (List.pairwise_replicate.2 (Or.inr (Nat.le_refl _)))

/-- An emitted list is never longer than its candidate list. -/
theorem emit_length {α β : Type} (p : α → Bool) (f : α → β) (cand : List α) :
    ((cand.takeWhile p).map f).length ≤ cand.length := by
  rw [List.length_map]
  exact (List.takeWhile_sublist p).length_le

/-- An emitted list inherits the candidates' non-increasing order through a
key-preserving conversion. -/
theorem emit_pairwise {α β : Type} (key : α → Nat) (keyB : β → Nat) (p : α → Bool)
    (f : α → β) (hf : ∀ a, keyB (f a) = key a) (cand : List α)
    (h : cand.Pairwise (fun a b => key b ≤ key a)) :
    ((cand.takeWhile p).map f).Pairwise (fun a b => keyB b ≤ keyB a) := by
  refine (h.sublist (List.takeWhile_sublist p)).map f ?_
  intro a b hab
  rw [hf a, hf b]
  exact hab

/-- Every emitted entry converts a candidate that passed the emission
guard. -/
theorem emit_mem {α β : Type} (p : α → Bool) (f : α → β) (cand : List α) {st : β}
    (h : st ∈ (cand.takeWhile p).map f) :
    ∃ u, u ∈ cand ∧ p u = true ∧ st = f u := by
  obtain ⟨u, hu, rfl⟩ := List.mem_map.1 h
  exact ⟨u, (List.takeWhile_sublist p).mem hu, List.mem_takeWhile_imp hu, rfl⟩

/-- Counterexample to C3 as stated: a uid with write activity only (nonzero
whole usage, zero read bytes) is inserted into the reader candidates ahead of
the zero sentinels and the reader emission stops only at the first
whole-zero candidate, so the produced top-N readers list contains an entry
whose ranked metric (read bytes) is 0. -/
theorem C3_topn_counterexample :
    writeOnlyUsage.ios.isZero = false ∧
    writeOnlyUsage.ios.sumReadBytes = 0 ∧
    ((collectUidIoPerfData 2 [] [writeOnlyUsage]).topNReads.map
      (fun st => st.rankedBytes)) = [0] :=
  ⟨rfl, rfl, by decide⟩

/-- C3 amended: every produced top-N list has at most `mTopNStatsPerCategory`
entries and is sorted in non-increasing order of its ranked metric; the
bounded insertion displaces exactly the current minimum (the last element of
the sorted candidate list) whenever it fires; the process-stat lists (top
I/O-blocked, top major-fault) contain no entry whose ranked metric is 0; the
uid I/O lists (top readers, top writers) contain no entry whose whole usage
is zero — but an entry whose ranked byte metric is 0 can appear in them when
the uid had activity only in the other metrics. -/
theorem C3_topn_amended :
    (∀ (n : Nat) (mapping : List (Nat × String)) (usages : List UidIoUsage),
      (collectUidIoPerfData n mapping usages).topNReads.length ≤ n ∧
      (collectUidIoPerfData n mapping usages).topNReads.Pairwise
        (fun a b => b.rankedBytes ≤ a.rankedBytes) ∧
      (∀ st ∈ (collectUidIoPerfData n mapping usages).topNReads,
        ∃ u ∈ usages, u.ios.isZero = false ∧ st = mkReadStats mapping u) ∧
      (collectUidIoPerfData n mapping usages).topNWrites.length ≤ n ∧
      (collectUidIoPerfData n mapping usages).topNWrites.Pairwise
        (fun a b => b.rankedBytes ≤ a.rankedBytes) ∧
      (∀ st ∈ (collectUidIoPerfData n mapping usages).topNWrites,
        ∃ u ∈ usages, u.ios.isZero = false ∧ st = mkWriteStats mapping u)) ∧
    (∀ (n : Nat) (mapping : List (Nat × String)) (lmf : Nat)
      (stats : List UidProcessStats),
      (collectProcessIoPerfData n mapping lmf stats).1.topNIoBlockedUids.length ≤ n ∧
      (collectProcessIoPerfData n mapping lmf stats).1.topNIoBlockedUids.Pairwise
        (fun a b => b.count ≤ a.count) ∧
      (∀ st ∈ (collectProcessIoPerfData n mapping lmf stats).1.topNIoBlockedUids,
        st.count ≠ 0) ∧
      (collectProcessIoPerfData n mapping lmf stats).1.topNMajorFaults.length ≤ n ∧
      (collectProcessIoPerfData n mapping lmf stats).1.topNMajorFaults.Pairwise
        (fun a b => b.count ≤ a.count) ∧
      (∀ st ∈ (collectProcessIoPerfData n mapping lmf stats).1.topNMajorFaults,
        st.count ≠ 0)) ∧
    (∀ (α : Type) (key : α → Nat) (x : α) (l : List α),
      l.Pairwise (fun a b => key b ≤ key a) →
      ∀ hne : l ≠ [],
        (∀ z ∈ l, key (l.getLast hne) ≤ key z) ∧
        (key (l.getLast hne) ≤ key x →
          (insertTop key x l).Perm (x :: l.dropLast))) := by
  refine ⟨?_, ?_, ?_⟩
  · intro n mapping usages
    have hR : (collectUidIoPerfData n mapping usages).topNReads =
        ((rankUidCandidates n (fun u => u.ios.sumReadBytes) usages).takeWhile
          (fun u => !u.ios.isZero)).map (mkReadStats mapping) := rfl
    have hW : (collectUidIoPerfData n mapping usages).topNWrites =
        ((rankUidCandidates n (fun u => u.ios.sumWriteBytes) usages).takeWhile
          (fun u => !u.ios.isZero)).map (mkWriteStats mapping) := rfl
    refine ⟨?_, ?_, ?_, ?_, ?_, ?_⟩
    · rw [hR]
      have := emit_length (fun u => !u.ios.isZero) (mkReadStats mapping)
        (rankUidCandidates n (fun u => u.ios.sumReadBytes) usages)
      rwa [rankUidCandidates_length] at this
    · rw [hR]
      exact emit_pairwise _ UidIoPerfStats.rankedBytes _ _ (fun a => rfl) _
        (rankUidCandidates_pairwise n _ usages)
    · rw [hR]
      intro st hst
      obtain ⟨u, hu, hp, rfl⟩ := emit_mem _ _ _ hst
      rcases rankUidCandidates_mem hu with rfl | hu2
      · exact absurd hp (by decide)
      · exact ⟨u, hu2, by simpa using hp, rfl⟩
    · rw [hW]
      have := emit_length (fun u => !u.ios.isZero) (mkWriteStats mapping)
        (rankUidCandidates n (fun u => u.ios.sumWriteBytes) usages)
      rwa [rankUidCandidates_length] at this
    · rw [hW]
      exact emit_pairwise _ UidIoPerfStats.rankedBytes _ _ (fun a => rfl) _
        (rankUidCandidates_pairwise n _ usages)
    · rw [hW]
      intro st hst
      obtain ⟨u, hu, hp, rfl⟩ := emit_mem _ _ _ hst
      rcases rankUidCandidates_mem hu with rfl | hu2
      · exact absurd hp (by decide)
      · exact ⟨u, hu2, by simpa using hp, rfl⟩
  · intro n mapping lmf stats
    have hB : (collectProcessIoPerfData n mapping lmf stats).1.topNIoBlockedUids =
        ((rankProcessCandidates n (fun u => u.ioBlockedTasksCnt) stats).takeWhile
          (fun u => u.ioBlockedTasksCnt != 0)).map
          (mkProcessStats mapping fun u => u.ioBlockedTasksCnt) := rfl
    have hM : (collectProcessIoPerfData n mapping lmf stats).1.topNMajorFaults =
        ((rankProcessCandidates n (fun u => u.majorFaults) stats).takeWhile
          (fun u => u.majorFaults != 0)).map
          (mkProcessStats mapping fun u => u.majorFaults) := rfl
    refine ⟨?_, ?_, ?_, ?_, ?_, ?_⟩
    · rw [hB]
      have := emit_length (fun u => u.ioBlockedTasksCnt != 0)
        (mkProcessStats mapping fun u => u.ioBlockedTasksCnt)
        (rankProcessCandidates n (fun u => u.ioBlockedTasksCnt) stats)
      rwa [rankProcessCandidates_length] at this
    · rw [hB]
      exact emit_pairwise _ ProcessIoPerfStats.count _ _ (fun a => rfl) _
        (rankProcessCandidates_pairwise n _ stats)
    · rw [hB]
      intro st hst
      obtain ⟨u, _, hp, rfl⟩ := emit_mem _ _ _ hst
      simpa using hp
    · rw [hM]
      have := emit_length (fun u => u.majorFaults != 0)
        (mkProcessStats mapping fun u => u.majorFaults)
        (rankProcessCandidates n (fun u => u.majorFaults) stats)
      rwa [rankProcessCandidates_length] at this
    · rw [hM]
      exact emit_pairwise _ ProcessIoPerfStats.count _ _ (fun a => rfl) _
        (rankProcessCandidates_pairwise n _ stats)
    · rw [hM]
      intro st hst
      obtain ⟨u, _, hp, rfl⟩ := emit_mem _ _ _ hst
      simpa using hp
  · intro α key x l hs hne
    refine ⟨sorted_getLast_min hs hne, fun hle => ?_⟩
    exact insertTop_perm ⟨l.getLast hne, List.getLast_mem hne, hle⟩

/-- Witness for the amended C3: the concrete reader list stays within its
bound, and a concrete bounded insertion that beats the minimum displaces
exactly that minimum (the last element of the sorted candidates). -/
theorem C3_topn_amended_witness :
    (collectUidIoPerfData 2 [] [writeOnlyUsage]).topNReads.length ≤ 2 ∧
    (insertTop (fun u : UidProcessStats => u.majorFaults) ⟨1, 0, 0, 5⟩
      [⟨2, 0, 0, 9⟩, ⟨3, 0, 0, 1⟩]).Perm
      (⟨1, 0, 0, 5⟩ :: ([⟨2, 0, 0, 9⟩, ⟨3, 0, 0, 1⟩] :
        List UidProcessStats).dropLast) := by
  constructor
  · exact (C3_topn_amended.1 2 [] [writeOnlyUsage]).1
  · have h3 := C3_topn_amended.2.2 UidProcessStats (fun u => u.majorFaults)
      ⟨1, 0, 0, 5⟩ [⟨2, 0, 0, 9⟩, ⟨3, 0, 0, 1⟩] (by decide) (by decide)
    exact h3.2 (by decide)

end CarWatchdog
